import Mathlib

set_option maxHeartbeats 1000000

/-!
Shallow embedding of the metal-miner Soroban contract
(src/mining.rs: MiningContract; src/player.rs: PlayerContract).

Machine integers are modelled as `Nat` with checked arithmetic: the
contract is built with `overflow-checks = true` (the standard Soroban
release profile), so an overflowing `+`, `-` or `*` panics, which at the
host level traps the invocation and rolls back all storage writes.  A
checked operation therefore returns `none` on overflow, and a trapped
invocation returns the caller's original state.  The `as u32` cast in
`update_experience` truncates unconditionally (`% 2 ^ 32`) in every build
profile.  `require_auth` is modelled by an `auth : Nat → Bool` predicate
supplied by the host for the invocation; an unauthorized call traps.
The ledger clock is a parameter `now`.
-/

def U32LIM : Nat := 2 ^ 32

def U64LIM : Nat := 2 ^ 64

/-- Checked `u32` addition: `none` models the overflow panic/trap. -/
def u32Add (a b : Nat) : Option Nat := if a + b < U32LIM then some (a + b) else none

/-- Checked `u64` addition: `none` models the overflow panic/trap. -/
def u64Add (a b : Nat) : Option Nat := if a + b < U64LIM then some (a + b) else none

/-- Checked `u64` multiplication: `none` models the overflow panic/trap. -/
def u64Mul (a b : Nat) : Option Nat := if a * b < U64LIM then some (a * b) else none

/-- Checked `u64` subtraction: `none` models the underflow panic/trap. -/
def u64Sub (a b : Nat) : Option Nat := if b ≤ a then some (a - b) else none

/-- The Rust `as u32` cast: truncation modulo `2 ^ 32` (never panics). -/
def castU32 (a : Nat) : Nat := a % U32LIM

/-- mining.rs `MetalType`. -/
inductive MetalType where
  | Gold
  | Silver
  | Copper
  | Iron
  | Platinum
deriving DecidableEq, Repr

/-- mining.rs `Mine`.  Addresses are modelled as `Nat`. -/
structure Mine where
  id : Nat
  owner : Nat
  metal_type : MetalType
  efficiency : Nat
  capacity : Nat
  current_production : Nat
  start_time : Nat
  last_harvest : Nat
  upgrade_level : Nat
deriving DecidableEq, Repr

/-- mining.rs `MinedResource`. -/
structure MinedResource where
  metal_type : MetalType
  amount : Nat
  mined_at : Nat
  efficiency_bonus : Nat
deriving DecidableEq, Repr

/-- Result of one contract invocation: `ok`, a returned `Err(&str)`, or a
host trap (panic / failed `require_auth`), which rolls back all writes. -/
inductive Outcome (α : Type) where
  | ok : α → Outcome α
  | err : String → Outcome α
  | trap : Outcome α
deriving DecidableEq, Repr

/-- The instance storage of `MiningContract`, one component per `DataKey`
kind.  `PlayerMines` and `GlobalProduction` reads use `unwrap_or` of an
empty vector / `0`, so they are modelled as total functions whose initial
value is that default. -/
structure MiningState where
  mines : Nat → Option Mine
  playerMines : Nat → List Nat
  mineCount : Nat
  globalProduction : MetalType → Nat

/-- Fresh instance storage: nothing set. -/
def initMiningState : MiningState :=
  { mines := fun _ => none
    playerMines := fun _ => []
    mineCount := 0
    globalProduction := fun _ => 0 }

/-- mining.rs `calculate_base_efficiency`. -/
def calculate_base_efficiency : MetalType → Nat
  | .Iron => 80
  | .Copper => 75
  | .Silver => 60
  | .Gold => 45
  | .Platinum => 30

/-- mining.rs `calculate_base_capacity`. -/
def calculate_base_capacity : MetalType → Nat
  | .Iron => 1000
  | .Copper => 800
  | .Silver => 500
  | .Gold => 200
  | .Platinum => 100

/-- The per-metal base hourly rate (the `match` inside
`calculate_production_rate`). -/
def base_rate_of : MetalType → Nat
  | .Iron => 50
  | .Copper => 40
  | .Silver => 25
  | .Gold => 10
  | .Platinum => 5

/-- mining.rs `calculate_production_rate`: `base_rate * upgrade_level as u64`
with checked multiplication. -/
def calculate_production_rate (metal_type : MetalType) (upgrade_level : Nat) : Option Nat :=
  u64Mul (base_rate_of metal_type) upgrade_level

/-- mining.rs `create_mine`. -/
def create_mine (auth : Nat → Bool) (now : Nat) (owner : Nat) (metal_type : MetalType)
    (s : MiningState) : Outcome Nat × MiningState :=
  if auth owner then
    match u32Add s.mineCount 1 with
    | none => (Outcome.trap, s)
    | some mine_id =>
      let new_mine : Mine :=
        { id := mine_id
          owner := owner
          metal_type := metal_type
          efficiency := calculate_base_efficiency metal_type
          capacity := calculate_base_capacity metal_type
          current_production := 0
          start_time := now
          last_harvest := now
          upgrade_level := 1 }
      let s1 := { s with mines := fun i => if i = mine_id then some new_mine else s.mines i }
      let s2 := { s1 with playerMines := fun a =>
                    if a = owner then s1.playerMines a ++ [mine_id] else s1.playerMines a }
      (Outcome.ok mine_id, { s2 with mineCount := mine_id })
  else (Outcome.trap, s)

/-- mining.rs `get_mine`. -/
def get_mine (s : MiningState) (mine_id : Nat) : Option Mine := s.mines mine_id

/-- mining.rs `get_player_mines`. -/
def get_player_mines (s : MiningState) (player : Nat) : List Nat := s.playerMines player

/-- mining.rs `harvest_mine`. -/
def harvest_mine (auth : Nat → Bool) (now : Nat) (mine_id : Nat) (s : MiningState) :
    Outcome MinedResource × MiningState :=
  match s.mines mine_id with
  | none => (Outcome.err "Mine not found", s)
  | some mine =>
    if auth mine.owner then
      match u64Sub now mine.last_harvest with
      | none => (Outcome.trap, s)
      | some time_since_last_harvest =>
        if time_since_last_harvest < 3600 then
          (Outcome.err "Must wait at least 1 hour between harvests", s)
        else
          let hours_passed := time_since_last_harvest / 3600
          match calculate_production_rate mine.metal_type mine.upgrade_level with
          | none => (Outcome.trap, s)
          | some base_production =>
            match u64Mul base_production hours_passed with
            | none => (Outcome.trap, s)
            | some interim_product =>
              match u64Mul interim_product mine.efficiency with
              | none => (Outcome.trap, s)
              | some full_product =>
                let produced_amount := full_product / 100
                let final_amount :=
                  if produced_amount > mine.capacity then mine.capacity else produced_amount
                match u64Add mine.current_production final_amount with
                | none => (Outcome.trap, s)
                | some new_production =>
                  let new_mine :=
                    { mine with current_production := new_production, last_harvest := now }
                  let s1 := { s with mines := fun i =>
                                if i = mine_id then some new_mine else s.mines i }
                  match u64Add (s1.globalProduction mine.metal_type) final_amount with
                  | none => (Outcome.trap, s)
                  | some new_global =>
                    (Outcome.ok
                      { metal_type := mine.metal_type
                        amount := final_amount
                        mined_at := now
                        efficiency_bonus := mine.efficiency },
                     { s1 with globalProduction := fun mt =>
                         if mt = mine.metal_type then new_global
                         else s1.globalProduction mt })
    else (Outcome.trap, s)

/-- mining.rs `upgrade_mine`. -/
def upgrade_mine (auth : Nat → Bool) (mine_id : Nat) (s : MiningState) :
    Outcome Unit × MiningState :=
  match s.mines mine_id with
  | none => (Outcome.err "Mine not found", s)
  | some mine =>
    if auth mine.owner then
      if mine.upgrade_level ≥ 10 then (Outcome.err "Maximum upgrade level reached", s)
      else
        match u32Add mine.upgrade_level 1 with
        | none => (Outcome.trap, s)
        | some new_level =>
          match u32Add mine.efficiency 5 with
          | none => (Outcome.trap, s)
          | some new_efficiency =>
            match u64Add mine.capacity (calculate_base_capacity mine.metal_type / 10) with
            | none => (Outcome.trap, s)
            | some new_capacity =>
              let new_mine :=
                { mine with
                    upgrade_level := new_level
                    efficiency := new_efficiency
                    capacity := new_capacity }
              (Outcome.ok (),
               { s with mines := fun i => if i = mine_id then some new_mine else s.mines i })
    else (Outcome.trap, s)

/-- mining.rs `get_global_production`. -/
def get_global_production (s : MiningState) (metal_type : MetalType) : Nat :=
  s.globalProduction metal_type

/-- player.rs `Player`. -/
structure Player where
  address : Nat
  username : String
  level : Nat
  experience : Nat
  total_mined : Nat
  active_mines : List Nat
  last_activity : Nat
deriving DecidableEq, Repr

/-- The instance storage of `PlayerContract`. -/
structure PlayerState where
  players : Nat → Option Player
  playerCount : Nat

/-- Fresh instance storage: nothing set. -/
def initPlayerState : PlayerState :=
  { players := fun _ => none
    playerCount := 0 }

/-- player.rs `register_player`. -/
def register_player (now : Nat) (player : Nat) (username : String) (s : PlayerState) :
    Outcome Unit × PlayerState :=
  match s.players player with
  | some _ => (Outcome.err "Player already registered", s)
  | none =>
    let new_player : Player :=
      { address := player
        username := username
        level := 1
        experience := 0
        total_mined := 0
        active_mines := []
        last_activity := now }
    let s1 := { s with players := fun a => if a = player then some new_player else s.players a }
    match u32Add s1.playerCount 1 with
    | none => (Outcome.trap, s)
    | some new_count => (Outcome.ok (), { s1 with playerCount := new_count })

/-- player.rs `get_player`. -/
def get_player (s : PlayerState) (player : Nat) : Option Player := s.players player

/-- player.rs `update_experience`.  The candidate level is computed in
`u64` arithmetic and stored through an `as u32` cast. -/
def update_experience (now : Nat) (player : Nat) (exp_gained : Nat) (s : PlayerState) :
    Outcome Unit × PlayerState :=
  match s.players player with
  | none => (Outcome.err "Player not found", s)
  | some player_data =>
    match u64Add player_data.experience exp_gained with
    | none => (Outcome.trap, s)
    | some new_experience =>
      let p1 := { player_data with experience := new_experience, last_activity := now }
      let new_level := new_experience / 1000 + 1
      let p2 := if new_level > p1.level then { p1 with level := castU32 new_level } else p1
      (Outcome.ok (), { s with players := fun a => if a = player then some p2 else s.players a })

/-- player.rs `add_active_mine`. -/
def add_active_mine (now : Nat) (player : Nat) (mine_id : Nat) (s : PlayerState) :
    Outcome Unit × PlayerState :=
  match s.players player with
  | none => (Outcome.err "Player not found", s)
  | some player_data =>
    let p1 := { player_data with
                  active_mines := player_data.active_mines ++ [mine_id]
                  last_activity := now }
    (Outcome.ok (), { s with players := fun a => if a = player then some p1 else s.players a })

/-- player.rs `update_total_mined`. -/
def update_total_mined (now : Nat) (player : Nat) (amount : Nat) (s : PlayerState) :
    Outcome Unit × PlayerState :=
  match s.players player with
  | none => (Outcome.err "Player not found", s)
  | some player_data =>
    match u64Add player_data.total_mined amount with
    | none => (Outcome.trap, s)
    | some new_total =>
      let p1 := { player_data with total_mined := new_total, last_activity := now }
      (Outcome.ok (), { s with players := fun a => if a = player then some p1 else s.players a })

/-- player.rs `get_player_count`. -/
def get_player_count (s : PlayerState) : Nat := s.playerCount

/-- player.rs `is_player_active`: `current_time - player_data.last_activity`
is a checked `u64` subtraction, so a clock earlier than `last_activity`
traps; otherwise the result is a plain boolean. -/
def is_player_active (now : Nat) (player : Nat) (s : PlayerState) : Outcome Bool :=
  match s.players player with
  | none => Outcome.ok false
  | some player_data =>
    match u64Sub now player_data.last_activity with
    | none => Outcome.trap
    | some elapsed => Outcome.ok (decide (elapsed < 24 * 60 * 60))

/-! ## Scenario and specification definitions -/

/-- A host that authorizes every identity. -/
def allAuth : Nat → Bool := fun _ => true

/-- Fresh Iron mine owned by address 7, created at ledger time 0. -/
def ironS0 : MiningState := (create_mine allAuth 0 7 MetalType.Iron initMiningState).2

/-- First harvest of the Iron mine, 100 hours after creation. -/
def ironHarvest1 : Outcome MinedResource × MiningState := harvest_mine allAuth 360000 1 ironS0

/-- Second harvest of the Iron mine, another 100 hours later. -/
def ironHarvest2 : Outcome MinedResource × MiningState :=
  harvest_mine allAuth 720000 1 ironHarvest1.2

/-- Iterate `upgrade_mine` a given number of times, keeping the state. -/
def upgradeIter (auth : Nat → Bool) (mine_id : Nat) : Nat → MiningState → MiningState
  | 0, s => s
  | n + 1, s => upgradeIter auth mine_id n (upgrade_mine auth mine_id s).2

/-- The fresh Iron mine harvested exactly 3600 seconds after creation. -/
def ironFreshHarvest : Outcome MinedResource × MiningState := harvest_mine allAuth 3600 1 ironS0

/-- The level bounds invariant of §3: every stored mine has
`upgrade_level ∈ [1, 10]`. -/
def MineLevelsWF (s : MiningState) : Prop :=
  ∀ mine_id m, s.mines mine_id = some m → 1 ≤ m.upgrade_level ∧ m.upgrade_level ≤ 10

/-- States reachable from fresh storage by any sequence of mining
operations, with arbitrary clock values and authorization outcomes. -/
inductive ReachableM : MiningState → Prop where
  | init : ReachableM initMiningState
  | create (auth : Nat → Bool) (now owner : Nat) (mt : MetalType) (s : MiningState) :
      ReachableM s → ReachableM (create_mine auth now owner mt s).2
  | harvest (auth : Nat → Bool) (now mine_id : Nat) (s : MiningState) :
      ReachableM s → ReachableM (harvest_mine auth now mine_id s).2
  | upgrade (auth : Nat → Bool) (mine_id : Nat) (s : MiningState) :
      ReachableM s → ReachableM (upgrade_mine auth mine_id s).2

/-- One `create_mine` request: the owner, the metal, and the ledger time
of the call. -/
structure CreateReq where
  owner : Nat
  metal : MetalType
  time : Nat

/-- Run a sequence of `create_mine` calls, collecting the results. -/
def runCreates (auth : Nat → Bool) : List CreateReq → MiningState →
    List (Outcome Nat) × MiningState
  | [], s => ([], s)
  | r :: rest, s =>
    let step := create_mine auth r.time r.owner r.metal s
    let next := runCreates auth rest step.2
    (step.1 :: next.1, next.2)

/-- The Mine that `create_mine` builds and stores for a request. -/
def freshMine (mine_id : Nat) (r : CreateReq) : Mine :=
  { id := mine_id
    owner := r.owner
    metal_type := r.metal
    efficiency := calculate_base_efficiency r.metal
    capacity := calculate_base_capacity r.metal
    current_production := 0
    start_time := r.time
    last_harvest := r.time
    upgrade_level := 1 }

/-- The Mine obtained from a freshly created mine after `k` successful
upgrades: level `1 + k`, efficiency `base + 5k`, capacity
`base + (base / 10) * k`; all other fields as at creation. -/
def upgradedMine (mine_id : Nat) (r : CreateReq) (k : Nat) : Mine :=
  { id := mine_id
    owner := r.owner
    metal_type := r.metal
    efficiency := calculate_base_efficiency r.metal + 5 * k
    capacity := calculate_base_capacity r.metal + calculate_base_capacity r.metal / 10 * k
    current_production := 0
    start_time := r.time
    last_harvest := r.time
    upgrade_level := 1 + k }

/-! ## Theorems -/

/-- Claim C2: a `harvest_mine` call on an existing mine by an authorized
caller, made less than 3600 seconds after `last_harvest` (with a valid,
non-rewound clock), returns the TooEarly error and leaves the whole
mining state — the Mine and every global production counter — unchanged. -/
theorem claim_C2_too_early_unchanged (auth : Nat → Bool) (s : MiningState)
    (mine_id now : Nat) (m : Mine) (hm : s.mines mine_id = some m)
    (ha : auth m.owner = true) (hclock : m.last_harvest ≤ now)
    (hlt : now - m.last_harvest < 3600) :
    harvest_mine auth now mine_id s =
      (Outcome.err "Must wait at least 1 hour between harvests", s) := by
  simp only [harvest_mine, hm, ha, u64Sub, hclock, if_true, ite_true, hlt]

/-- Witness for C2 at a concrete input: harvesting the fresh Iron mine
100 seconds after creation fails TooEarly with the state unchanged. -/
theorem claim_C2_witness :
    harvest_mine allAuth 100 1 ironS0 =
      (Outcome.err "Must wait at least 1 hour between harvests", ironS0) :=
  claim_C2_too_early_unchanged allAuth ironS0 1 100
    { id := 1, owner := 7, metal_type := MetalType.Iron, efficiency := 80, capacity := 1000,
      current_production := 0, start_time := 0, last_harvest := 0, upgrade_level := 1 }
    (by decide) rfl (by decide) (by decide)

/-- Claim C8: the capacity cap is per-harvest, not lifetime: on a fresh
Iron mine (capacity 1000), two successful 100-hour harvests each yield the
capped amount 1000, after which `current_production = 2000` strictly
exceeds the mine's capacity. -/
theorem claim_C8_capacity_not_lifetime_cap :
    (ironHarvest1.1 = Outcome.ok
      { metal_type := MetalType.Iron, amount := 1000, mined_at := 360000,
        efficiency_bonus := 80 }) ∧
    (ironHarvest2.1 = Outcome.ok
      { metal_type := MetalType.Iron, amount := 1000, mined_at := 720000,
        efficiency_bonus := 80 }) ∧
    (∃ m, get_mine ironHarvest2.2 1 = some m ∧
      m.current_production = 2000 ∧ m.capacity = 1000 ∧ m.capacity < m.current_production) := by
  refine ⟨by decide, by decide,
    ⟨{ id := 1, owner := 7, metal_type := MetalType.Iron, efficiency := 80, capacity := 1000,
       current_production := 2000, start_time := 0, last_harvest := 720000, upgrade_level := 1 },
     by decide, by decide, by decide, by decide⟩⟩

/-- Claim C9: `is_player_active` returns `ok false` when no Player is
stored for the address, and for a stored Player (with a clock not behind
`last_activity`) it returns `ok true` exactly when fewer than 86400
seconds have elapsed since `last_activity`. -/
theorem claim_C9_is_player_active_iff (s : PlayerState) (player now : Nat) :
    (s.players player = none → is_player_active now player s = Outcome.ok false) ∧
    (∀ p, s.players player = some p → p.last_activity ≤ now →
      (is_player_active now player s = Outcome.ok true ↔ now - p.last_activity < 86400)) := by
  constructor
  · intro h
    simp [is_player_active, h]
  · intro p hp hc
    simp [is_player_active, hp, u64Sub, hc]

/-- Witness for C9 at a concrete input: a player registered at time 5 is
active at time 100. -/
theorem claim_C9_witness :
    is_player_active 100 1 (register_player 5 1 "alice" initPlayerState).2 = Outcome.ok true :=
  ((claim_C9_is_player_active_iff (register_player 5 1 "alice" initPlayerState).2 1 100).2
    { address := 1, username := "alice", level := 1, experience := 0, total_mined := 0,
      active_mines := [], last_activity := 5 }
    (by decide) (by decide)).mpr (by decide)

theorem u32Add_some {a b c : Nat} (h : u32Add a b = some c) : c = a + b ∧ a + b < U32LIM := by
  unfold u32Add at h
  split at h <;> simp_all

theorem u64Add_some {a b c : Nat} (h : u64Add a b = some c) : c = a + b ∧ a + b < U64LIM := by
  unfold u64Add at h
  split at h <;> simp_all

theorem u64Mul_some {a b c : Nat} (h : u64Mul a b = some c) : c = a * b ∧ a * b < U64LIM := by
  unfold u64Mul at h
  split at h <;> simp_all

theorem u64Sub_some {a b c : Nat} (h : u64Sub a b = some c) : c = a - b ∧ b ≤ a := by
  unfold u64Sub at h
  split at h <;> simp_all

/-- Claim C3: a successful `upgrade_mine` on a stored mine raises
`upgrade_level` by exactly 1 and `efficiency` by exactly 5 (uncapped),
adds exactly `base_capacity / 10` (truncating division) to `capacity`,
leaves every other field and every other mine unchanged; and the
efficiency ceiling of 100 is indeed not enforced: nine upgrades of a
fresh Iron mine leave it at efficiency 125 > 100. -/
theorem claim_C3_upgrade_effects :
    (∀ (auth : Nat → Bool) (s : MiningState) (mine_id : Nat) (m : Mine),
      s.mines mine_id = some m →
      (upgrade_mine auth mine_id s).1 = Outcome.ok () →
      m.upgrade_level < 10 ∧
      (upgrade_mine auth mine_id s).2.mines mine_id =
        some { m with
                 upgrade_level := m.upgrade_level + 1
                 efficiency := m.efficiency + 5
                 capacity := m.capacity + calculate_base_capacity m.metal_type / 10 } ∧
      (∀ i, i ≠ mine_id → (upgrade_mine auth mine_id s).2.mines i = s.mines i)) ∧
    (get_mine (upgradeIter allAuth 1 9 ironS0) 1 =
      some { id := 1, owner := 7, metal_type := MetalType.Iron, efficiency := 125,
             capacity := 1900, current_production := 0, start_time := 0, last_harvest := 0,
             upgrade_level := 10 } ∧ 100 < 125) := by
  constructor
  · intro auth s mine_id m hm hok
    simp only [upgrade_mine, hm] at hok ⊢
    by_cases hau : auth m.owner = true
    case neg => rw [if_neg hau] at hok; simp at hok
    case pos =>
      rw [if_pos hau] at hok ⊢
      by_cases hlvl : m.upgrade_level ≥ 10
      · rw [if_pos hlvl] at hok; simp at hok
      · rw [if_neg hlvl] at hok ⊢
        rcases h1 : u32Add m.upgrade_level 1 with _ | nl
        · rw [h1] at hok; exact Outcome.noConfusion hok
        · rcases h2 : u32Add m.efficiency 5 with _ | ne
          · rw [h1, h2] at hok; exact Outcome.noConfusion hok
          · rcases h3 : u64Add m.capacity (calculate_base_capacity m.metal_type / 10) with _ | nc
            · rw [h1, h2, h3] at hok; exact Outcome.noConfusion hok
            · obtain ⟨hnl, _⟩ := u32Add_some h1
              obtain ⟨hne, _⟩ := u32Add_some h2
              obtain ⟨hnc, _⟩ := u64Add_some h3
              subst hnl hne hnc
              refine ⟨by omega, by simp, ?_⟩
              intro i hi
              simp [hi]
  · exact ⟨by decide, by decide⟩

/-- Witness for C3 at a concrete input: one upgrade of the fresh Iron
mine takes it to level 2, efficiency 85, capacity 1100. -/
theorem claim_C3_witness :
    (upgrade_mine allAuth 1 ironS0).2.mines 1 =
      some { id := 1, owner := 7, metal_type := MetalType.Iron, efficiency := 85,
             capacity := 1100, current_production := 0, start_time := 0, last_harvest := 0,
             upgrade_level := 2 } :=
  ((claim_C3_upgrade_effects.1 allAuth ironS0 1
    { id := 1, owner := 7, metal_type := MetalType.Iron, efficiency := 80, capacity := 1000,
      current_production := 0, start_time := 0, last_harvest := 0, upgrade_level := 1 }
    (by decide) (by decide)).2).1

/-- Claim C1: a successful `harvest_mine` on a stored mine implies the
owner was authorized and at least 3600 seconds elapsed; it credits
exactly `final = min(base_rate * upgrade_level * floor(elapsed / 3600) *
efficiency / 100, capacity)` (truncating division): the receipt carries
`final`, the clock, the mine's metal type and efficiency; the mine's
`current_production` grows by exactly `final` and `last_harvest` becomes
`now` (sub-hour residual discarded); the per-metal global counter grows
by exactly `final`; all other mines and counters are unchanged.  In
particular a fresh Iron mine harvested exactly 3600 seconds after
creation yields 40, with `current_production = 40` and the global Iron
counter at 40. -/
theorem claim_C1_harvest_effects :
    (∀ (auth : Nat → Bool) (s : MiningState) (mine_id now : Nat) (m : Mine)
      (res : MinedResource),
      s.mines mine_id = some m →
      (harvest_mine auth now mine_id s).1 = Outcome.ok res →
      auth m.owner = true ∧
      3600 ≤ now - m.last_harvest ∧ m.last_harvest ≤ now ∧
      res = { metal_type := m.metal_type
              amount := min (base_rate_of m.metal_type * m.upgrade_level *
                              ((now - m.last_harvest) / 3600) * m.efficiency / 100) m.capacity
              mined_at := now
              efficiency_bonus := m.efficiency } ∧
      (harvest_mine auth now mine_id s).2.mines mine_id =
        some { m with current_production := m.current_production + res.amount
                      last_harvest := now } ∧
      (harvest_mine auth now mine_id s).2.globalProduction m.metal_type =
        s.globalProduction m.metal_type + res.amount ∧
      (∀ i, i ≠ mine_id → (harvest_mine auth now mine_id s).2.mines i = s.mines i) ∧
      (∀ mt, mt ≠ m.metal_type →
        (harvest_mine auth now mine_id s).2.globalProduction mt = s.globalProduction mt)) ∧
    (ironFreshHarvest.1 = Outcome.ok
      { metal_type := MetalType.Iron, amount := 40, mined_at := 3600, efficiency_bonus := 80 } ∧
     get_mine ironFreshHarvest.2 1 =
      some { id := 1, owner := 7, metal_type := MetalType.Iron, efficiency := 80,
             capacity := 1000, current_production := 40, start_time := 0,
             last_harvest := 3600, upgrade_level := 1 } ∧
     get_global_production ironFreshHarvest.2 MetalType.Iron = 40) := by
  constructor
  · intro auth s mine_id now m res hm hok
    simp only [harvest_mine, hm] at hok ⊢
    by_cases hau : auth m.owner = true
    case neg => rw [if_neg hau] at hok; exact Outcome.noConfusion hok
    case pos =>
      rw [if_pos hau] at hok ⊢
      rcases h1 : u64Sub now m.last_harvest with _ | elapsed
      · rw [h1] at hok; exact Outcome.noConfusion hok
      · rw [h1] at hok
        dsimp only [] at hok ⊢
        obtain ⟨helap, hle⟩ := u64Sub_some h1
        by_cases h2 : elapsed < 3600
        · rw [if_pos h2] at hok; exact Outcome.noConfusion hok
        · rw [if_neg h2] at hok ⊢
          rcases h3 : calculate_production_rate m.metal_type m.upgrade_level with _ | base
          · rw [h3] at hok; exact Outcome.noConfusion hok
          · rw [h3] at hok
            dsimp only [] at hok ⊢
            obtain ⟨hbase, _⟩ := u64Mul_some h3
            rcases h4 : u64Mul base (elapsed / 3600) with _ | pp
            · rw [h4] at hok; exact Outcome.noConfusion hok
            · rw [h4] at hok
              dsimp only [] at hok ⊢
              obtain ⟨hpp, _⟩ := u64Mul_some h4
              rcases h5 : u64Mul pp m.efficiency with _ | fp
              · rw [h5] at hok; exact Outcome.noConfusion hok
              · rw [h5] at hok
                dsimp only [] at hok ⊢
                obtain ⟨hfp, _⟩ := u64Mul_some h5
                rcases h6 : u64Add m.current_production
                    (if fp / 100 > m.capacity then m.capacity else fp / 100) with _ | np
                · rw [h6] at hok; exact Outcome.noConfusion hok
                · rw [h6] at hok
                  dsimp only [] at hok ⊢
                  obtain ⟨hnp, _⟩ := u64Add_some h6
                  rcases h7 : u64Add (s.globalProduction m.metal_type)
                      (if fp / 100 > m.capacity then m.capacity else fp / 100) with _ | ng
                  · rw [h7] at hok; exact Outcome.noConfusion hok
                  · rw [h7] at hok
                    dsimp only [] at hok ⊢
                    obtain ⟨hng, _⟩ := u64Add_some h7
                    injection hok with hres
                    subst hres helap hbase hpp hfp hnp hng
                    refine ⟨hau, by omega, hle, ?_, ?_, ?_, ?_, ?_⟩
                    · simp only [MinedResource.mk.injEq, true_and, and_true]
                      rw [Nat.min_def]
                      split <;> split <;> omega
                    · rw [if_pos (rfl : mine_id = mine_id)]
                    · rw [if_pos (rfl : m.metal_type = m.metal_type)]
                    · intro i hi
                      simp [hi]
                    · intro mt hmt
                      simp [hmt]
  · exact ⟨by decide, by decide, by decide⟩

/-- Witness for C1 at a concrete input: the fresh Iron mine harvested at
3600 holds production 40 afterwards. -/
theorem claim_C1_witness :
    (harvest_mine allAuth 3600 1 ironS0).2.mines 1 =
      some { id := 1, owner := 7, metal_type := MetalType.Iron, efficiency := 80,
             capacity := 1000, current_production := 40, start_time := 0,
             last_harvest := 3600, upgrade_level := 1 } :=
  (claim_C1_harvest_effects.1 allAuth ironS0 1 3600
    { id := 1, owner := 7, metal_type := MetalType.Iron, efficiency := 80, capacity := 1000,
      current_production := 0, start_time := 0, last_harvest := 0, upgrade_level := 1 }
    { metal_type := MetalType.Iron, amount := 40, mined_at := 3600, efficiency_bonus := 80 }
    (by decide) (by decide)).2.2.2.2.1

theorem create_mine_preserves_levels (auth : Nat → Bool) (now owner : Nat) (mt : MetalType)
    (s : MiningState) (h : MineLevelsWF s) :
    MineLevelsWF (create_mine auth now owner mt s).2 := by
  unfold create_mine
  by_cases hau : auth owner = true
  case neg => rw [if_neg hau]; exact h
  case pos =>
    rw [if_pos hau]
    rcases hc : u32Add s.mineCount 1 with _ | mid
    · exact h
    · intro i mm hi
      dsimp only [] at hi
      by_cases hieq : i = mid
      · rw [if_pos hieq] at hi
        injection hi with h2
        rw [← h2]
        exact ⟨Nat.le_refl 1, show (1 : Nat) ≤ 10 by omega⟩
      · rw [if_neg hieq] at hi
        exact h i mm hi

theorem harvest_mine_preserves_levels (auth : Nat → Bool) (now mine_id : Nat)
    (s : MiningState) (h : MineLevelsWF s) :
    MineLevelsWF (harvest_mine auth now mine_id s).2 := by
  unfold harvest_mine
  rcases hm : s.mines mine_id with _ | mine
  · exact h
  · dsimp only []
    by_cases hau : auth mine.owner = true
    case neg => rw [if_neg hau]; exact h
    case pos =>
      rw [if_pos hau]
      rcases h1 : u64Sub now mine.last_harvest with _ | elapsed
      · exact h
      · dsimp only []
        by_cases h2 : elapsed < 3600
        · rw [if_pos h2]; exact h
        · rw [if_neg h2]
          rcases h3 : calculate_production_rate mine.metal_type mine.upgrade_level with _ | base
          · exact h
          · dsimp only []
            rcases h4 : u64Mul base (elapsed / 3600) with _ | pp
            · exact h
            · dsimp only []
              rcases h5 : u64Mul pp mine.efficiency with _ | fp
              · exact h
              · dsimp only []
                rcases h6 : u64Add mine.current_production
                    (if fp / 100 > mine.capacity then mine.capacity else fp / 100) with _ | np
                · exact h
                · dsimp only []
                  rcases h7 : u64Add (s.globalProduction mine.metal_type)
                      (if fp / 100 > mine.capacity then mine.capacity else fp / 100) with _ | ng
                  · exact h
                  · intro i mm hi
                    dsimp only [] at hi
                    by_cases hieq : i = mine_id
                    · rw [if_pos hieq] at hi
                      injection hi with h8
                      rw [← h8]
                      exact h mine_id mine hm
                    · rw [if_neg hieq] at hi
                      exact h i mm hi

theorem upgrade_mine_preserves_levels (auth : Nat → Bool) (mine_id : Nat)
    (s : MiningState) (h : MineLevelsWF s) :
    MineLevelsWF (upgrade_mine auth mine_id s).2 := by
  unfold upgrade_mine
  rcases hm : s.mines mine_id with _ | mine
  · exact h
  · dsimp only []
    by_cases hau : auth mine.owner = true
    case neg => rw [if_neg hau]; exact h
    case pos =>
      rw [if_pos hau]
      by_cases hlvl : mine.upgrade_level ≥ 10
      · rw [if_pos hlvl]; exact h
      · rw [if_neg hlvl]
        rcases h1 : u32Add mine.upgrade_level 1 with _ | nl
        · exact h
        · dsimp only []
          rcases h2 : u32Add mine.efficiency 5 with _ | ne
          · exact h
          · dsimp only []
            rcases h3 : u64Add mine.capacity (calculate_base_capacity mine.metal_type / 10)
                with _ | nc
            · exact h
            · intro i mm hi
              dsimp only [] at hi
              by_cases hieq : i = mine_id
              · rw [if_pos hieq] at hi
                injection hi with h8
                rw [← h8]
                obtain ⟨hnl, _⟩ := u32Add_some h1
                refine ⟨?_, ?_⟩ <;> simp only [] <;> omega
              · rw [if_neg hieq] at hi
                exact h i mm hi

theorem reachable_levels (s : MiningState) (h : ReachableM s) : MineLevelsWF s := by
  induction h with
  | init => intro i m hi; exact Option.noConfusion hi
  | create auth now owner mt s _ ih => exact create_mine_preserves_levels auth now owner mt s ih
  | harvest auth now mine_id s _ ih => exact harvest_mine_preserves_levels auth now mine_id s ih
  | upgrade auth mine_id s _ ih => exact upgrade_mine_preserves_levels auth mine_id s ih

theorem base_efficiency_le (mt : MetalType) : calculate_base_efficiency mt ≤ 80 := by
  cases mt <;> decide

theorem base_capacity_le (mt : MetalType) : calculate_base_capacity mt ≤ 1000 := by
  cases mt <;> decide

theorem upgradeIter_succ (auth : Nat → Bool) (mine_id n : Nat) :
    ∀ s, upgradeIter auth mine_id (n + 1) s =
      (upgrade_mine auth mine_id (upgradeIter auth mine_id n s)).2 := by
  induction n with
  | zero => intro s; rfl
  | succ n ih =>
    intro s
    show upgradeIter auth mine_id (n + 1) (upgrade_mine auth mine_id s).2 =
      (upgrade_mine auth mine_id (upgradeIter auth mine_id n (upgrade_mine auth mine_id s).2)).2
    exact ih (upgrade_mine auth mine_id s).2

theorem upgrade_step_fresh (auth : Nat → Bool) (s : MiningState) (mine_id : Nat)
    (r : CreateReq) (k : Nat) (hk : k < 9)
    (hm : s.mines mine_id = some (upgradedMine mine_id r k)) (hau : auth r.owner = true) :
    (upgrade_mine auth mine_id s).1 = Outcome.ok () ∧
    (upgrade_mine auth mine_id s).2.mines mine_id = some (upgradedMine mine_id r (k + 1)) ∧
    (∀ i, i ≠ mine_id → (upgrade_mine auth mine_id s).2.mines i = s.mines i) := by
  have heff := base_efficiency_le r.metal
  have hcap := base_capacity_le r.metal
  have hdiv : calculate_base_capacity r.metal / 10 ≤ 100 := by omega
  have hmul : calculate_base_capacity r.metal / 10 * k ≤ 100 * 9 :=
    Nat.mul_le_mul hdiv (by omega)
  have hU32 : U32LIM = 4294967296 := rfl
  have hU64 : U64LIM = 18446744073709551616 := rfl
  simp only [upgrade_mine, hm]
  dsimp only [upgradedMine]
  rw [if_pos hau]
  rw [if_neg (show ¬1 + k ≥ 10 by omega)]
  unfold u32Add u64Add
  rw [if_pos (show 1 + k + 1 < U32LIM by omega)]
  rw [if_pos (show calculate_base_efficiency r.metal + 5 * k + 5 < U32LIM by omega)]
  rw [if_pos (show calculate_base_capacity r.metal +
      calculate_base_capacity r.metal / 10 * k +
      calculate_base_capacity r.metal / 10 < U64LIM by omega)]
  dsimp only []
  refine ⟨rfl, ?_, ?_⟩
  · rw [if_pos rfl]
    simp only [Option.some.injEq, Mine.mk.injEq, true_and, and_true]
    refine ⟨by omega, ?_, by omega⟩
    rw [Nat.mul_add]
    omega
  · intro i hi
    rw [if_neg hi]

theorem upgradeIter_fresh (auth : Nat → Bool) (mine_id : Nat) (r : CreateReq)
    (hau : auth r.owner = true) :
    ∀ k, k ≤ 9 → ∀ s, s.mines mine_id = some (freshMine mine_id r) →
      (upgradeIter auth mine_id k s).mines mine_id = some (upgradedMine mine_id r k) ∧
      (∀ i, i ≠ mine_id → (upgradeIter auth mine_id k s).mines i = s.mines i) := by
  intro k
  induction k with
  | zero =>
    intro _ s hm
    exact ⟨hm, fun i _ => rfl⟩
  | succ k ih =>
    intro hk9 s hm
    rw [upgradeIter_succ]
    obtain ⟨h1, h2⟩ := ih (by omega) s hm
    have hstep := upgrade_step_fresh auth (upgradeIter auth mine_id k s) mine_id r k
      (by omega) h1 hau
    refine ⟨hstep.2.1, ?_⟩
    intro i hi
    rw [hstep.2.2 i hi, h2 i hi]

/-- Claim C4: for every freshly created mine — any state storing
`freshMine mine_id r` (level 1) at `mine_id`, any authorized owner —
each of nine consecutive `upgrade_mine` calls succeeds, reaching
`upgrade_level = 10`; the tenth call fails with MaxLevelReached and
returns the state — hence every Mine field — unchanged; and on every
state reachable by any sequence of mining operations, every stored
mine's `upgrade_level` lies in [1, 10]. -/
theorem claim_C4_upgrade_ladder :
    (∀ (auth : Nat → Bool) (s : MiningState) (mine_id : Nat) (r : CreateReq),
      s.mines mine_id = some (freshMine mine_id r) → auth r.owner = true →
      (∀ k, k < 9 →
        (upgrade_mine auth mine_id (upgradeIter auth mine_id k s)).1 = Outcome.ok ()) ∧
      (get_mine (upgradeIter auth mine_id 9 s) mine_id).map Mine.upgrade_level = some 10 ∧
      upgrade_mine auth mine_id (upgradeIter auth mine_id 9 s) =
        (Outcome.err "Maximum upgrade level reached", upgradeIter auth mine_id 9 s)) ∧
    (∀ s, ReachableM s → ∀ mine_id m, get_mine s mine_id = some m →
      1 ≤ m.upgrade_level ∧ m.upgrade_level ≤ 10) := by
  constructor
  · intro auth s mine_id r hm hau
    have hiter := upgradeIter_fresh auth mine_id r hau
    have h9 := (hiter 9 (by omega) s hm).1
    refine ⟨?_, ?_, ?_⟩
    · intro k hk
      exact (upgrade_step_fresh auth (upgradeIter auth mine_id k s) mine_id r k hk
        (hiter k (by omega) s hm).1 hau).1
    · show ((upgradeIter auth mine_id 9 s).mines mine_id).map Mine.upgrade_level = some 10
      rw [h9]
      rfl
    · simp only [upgrade_mine, h9]
      dsimp only [upgradedMine]
      rw [if_pos hau]
      rw [if_pos (show 1 + 9 ≥ 10 by omega)]
  · exact fun s h => reachable_levels s h

/-- Witness for C4 at a concrete input: for the fresh Iron mine of
`ironS0`, the first upgrade call succeeds, and the reachability
invariant holds for its stored mine. -/
theorem claim_C4_witness :
    (upgrade_mine allAuth 1 (upgradeIter allAuth 1 0 ironS0)).1 = Outcome.ok () ∧
      (1 ≤ (1 : Nat) ∧ (1 : Nat) ≤ 10) :=
  ⟨((claim_C4_upgrade_ladder.1 allAuth ironS0 1
      { owner := 7, metal := MetalType.Iron, time := 0 } (by decide) rfl).1 0 (by decide)),
   claim_C4_upgrade_ladder.2 ironS0
     (ReachableM.create allAuth 0 7 MetalType.Iron initMiningState ReachableM.init) 1
     { id := 1, owner := 7, metal_type := MetalType.Iron, efficiency := 80, capacity := 1000,
       current_production := 0, start_time := 0, last_harvest := 0, upgrade_level := 1 }
     (by decide)⟩

theorem create_mine_success (auth : Nat → Bool) (r : CreateReq) (s : MiningState)
    (hau : auth r.owner = true) (hcnt : s.mineCount + 1 < U32LIM) :
    create_mine auth r.time r.owner r.metal s =
      (Outcome.ok (s.mineCount + 1),
       { mines := fun i => if i = s.mineCount + 1 then some (freshMine (s.mineCount + 1) r)
                   else s.mines i
         playerMines := fun a => if a = r.owner then s.playerMines a ++ [s.mineCount + 1]
                   else s.playerMines a
         mineCount := s.mineCount + 1
         globalProduction := s.globalProduction }) := by
  unfold create_mine u32Add
  rw [if_pos hau, if_pos hcnt]
  rfl

theorem runCreates_spec (auth : Nat → Bool) (reqs : List CreateReq) :
    ∀ s : MiningState, (∀ r ∈ reqs, auth r.owner = true) →
      s.mineCount + reqs.length < U32LIM →
      (runCreates auth reqs s).1 =
        (List.range reqs.length).map (fun k => Outcome.ok (s.mineCount + k + 1)) ∧
      (runCreates auth reqs s).2.mineCount = s.mineCount + reqs.length ∧
      (∀ j, j ≤ s.mineCount → (runCreates auth reqs s).2.mines j = s.mines j) ∧
      (∀ k, (hk : k < reqs.length) →
        (runCreates auth reqs s).2.mines (s.mineCount + k + 1) =
          some (freshMine (s.mineCount + k + 1) (reqs.get ⟨k, hk⟩))) := by
  induction reqs with
  | nil =>
    intro s _ _
    exact ⟨rfl, rfl, fun j _ => rfl, fun k hk => absurd hk (by simp)⟩
  | cons r rest ih =>
    intro s hall hcnt
    have hau : auth r.owner = true := hall r (by simp)
    have hone : s.mineCount + 1 < U32LIM := by
      simp only [List.length_cons] at hcnt
      omega
    simp only [runCreates, create_mine_success auth r s hau hone]
    obtain ⟨ih1, ih2, ih3, ih4⟩ := ih
      { mines := fun i => if i = s.mineCount + 1 then some (freshMine (s.mineCount + 1) r)
                  else s.mines i
        playerMines := fun a => if a = r.owner then s.playerMines a ++ [s.mineCount + 1]
                  else s.playerMines a
        mineCount := s.mineCount + 1
        globalProduction := s.globalProduction }
      (fun r' hr' => hall r' (by simp [hr']))
      (by
        simp only [List.length_cons] at hcnt
        show s.mineCount + 1 + rest.length < U32LIM
        omega)
    dsimp only [] at ih1 ih2 ih3 ih4
    refine ⟨?_, ?_, ?_, ?_⟩
    · simp only [List.length_cons, List.range_succ_eq_map, List.map_cons, List.map_map, ih1]
      congr 1
      apply List.map_congr_left
      intro a _
      simp only [Function.comp]
      exact congrArg Outcome.ok (by omega)
    · simp only [List.length_cons]
      omega
    · intro j hj
      have h1 := ih3 j (by omega)
      rw [h1, if_neg (show ¬j = s.mineCount + 1 by omega)]
    · intro k hk
      match k with
      | 0 =>
        have hidx0 : s.mineCount + 0 + 1 = s.mineCount + 1 := by omega
        rw [hidx0]
        have h1 := ih3 (s.mineCount + 1) (Nat.le_refl _)
        rw [h1, if_pos rfl]
        rfl
      | k' + 1 =>
        have hk' : k' < rest.length := by
          simp only [List.length_cons] at hk
          omega
        have h1 := ih4 k' hk'
        have hidx : s.mineCount + (k' + 1) + 1 = s.mineCount + 1 + k' + 1 := by omega
        rw [hidx, h1]
        rfl

/-- Claim C5: starting from empty storage, any sequence of authorized
`create_mine` calls (shorter than the u32 id space) returns exactly the
ids 1, 2, 3, ... in order — strictly increasing, positive, gapless — and
for each returned id, `get_mine` returns exactly the Mine that the call
stored: base efficiency and capacity from the constants table for its
metal, zero production, `start_time = last_harvest =` the creation clock,
upgrade level 1, and the given owner and metal type. -/
theorem claim_C5_create_sequence_ids (auth : Nat → Bool) (reqs : List CreateReq)
    (hall : ∀ r ∈ reqs, auth r.owner = true) (hlen : reqs.length < U32LIM) :
    (runCreates auth reqs initMiningState).1 =
      (List.range reqs.length).map (fun k => Outcome.ok (k + 1)) ∧
    (∀ k, (hk : k < reqs.length) →
      get_mine (runCreates auth reqs initMiningState).2 (k + 1) =
        some (freshMine (k + 1) (reqs.get ⟨k, hk⟩))) := by
  obtain ⟨h1, _, _, h4⟩ := runCreates_spec auth reqs initMiningState hall
    (by show 0 + reqs.length < U32LIM; omega)
  constructor
  · rw [h1]
    apply List.map_congr_left
    intro a _
    exact congrArg Outcome.ok (by show 0 + a + 1 = a + 1; omega)
  · intro k hk
    have h5 := h4 k hk
    have hidx : initMiningState.mineCount + k + 1 = k + 1 := by
      show 0 + k + 1 = k + 1
      omega
    rw [hidx] at h5
    exact h5

/-- Witness for C5 at a concrete input: two creates return ids 1 and 2,
and the first stored mine is the Gold mine created at time 5 for
address 3. -/
theorem claim_C5_witness :
    (runCreates allAuth
        [{ owner := 3, metal := MetalType.Gold, time := 5 },
         { owner := 4, metal := MetalType.Iron, time := 9 }] initMiningState).1 =
      [Outcome.ok 1, Outcome.ok 2] :=
  (claim_C5_create_sequence_ids allAuth
    [{ owner := 3, metal := MetalType.Gold, time := 5 },
     { owner := 4, metal := MetalType.Iron, time := 9 }]
    (by decide) (by decide)).1

/-- Claim C6: the first `register_player` for an address (with the player
counter not saturated) succeeds, stores a Player with level 1, zero
experience and total mined, empty active mines and `last_activity = now`,
increments the player counter by exactly 1, and touches no other player;
a second registration for the same address fails AlreadyRegistered and
leaves the whole state — stored Player and counter — unchanged. -/
theorem claim_C6_register_twice (s : PlayerState) (addr : Nat) (u1 u2 : String)
    (now1 now2 : Nat) (hnone : s.players addr = none)
    (hcnt : s.playerCount + 1 < U32LIM) :
    (register_player now1 addr u1 s).1 = Outcome.ok () ∧
    (register_player now1 addr u1 s).2.players addr =
      some { address := addr, username := u1, level := 1, experience := 0,
             total_mined := 0, active_mines := [], last_activity := now1 } ∧
    get_player_count (register_player now1 addr u1 s).2 = get_player_count s + 1 ∧
    (∀ a, a ≠ addr → (register_player now1 addr u1 s).2.players a = s.players a) ∧
    register_player now2 addr u2 (register_player now1 addr u1 s).2 =
      (Outcome.err "Player already registered", (register_player now1 addr u1 s).2) := by
  have hstep : register_player now1 addr u1 s =
      (Outcome.ok (),
       { players := fun a => if a = addr then
           some { address := addr, username := u1, level := 1, experience := 0,
                  total_mined := 0, active_mines := [], last_activity := now1 }
           else s.players a
         playerCount := s.playerCount + 1 }) := by
    unfold register_player u32Add
    rw [hnone]
    dsimp only []
    rw [if_pos hcnt]
  rw [hstep]
  refine ⟨rfl, ?_, rfl, ?_, ?_⟩
  · dsimp only []
    rw [if_pos rfl]
  · intro a ha
    dsimp only []
    rw [if_neg ha]
  · unfold register_player
    dsimp only []
    rw [if_pos rfl]

/-- Witness for C6 at a concrete input: re-registering address 1 fails
and leaves the state of the first registration unchanged. -/
theorem claim_C6_witness :
    register_player 20 1 "bob" (register_player 10 1 "alice" initPlayerState).2 =
      (Outcome.err "Player already registered",
       (register_player 10 1 "alice" initPlayerState).2) :=
  (claim_C6_register_twice initPlayerState 1 "alice" "bob" 10 20 rfl (by decide)).2.2.2.2

/-- Counterexample to C7 as stated: for the registered player at address
1 (level 1, experience 0), `update_experience` with gain 4294967295000
makes the 64-bit candidate level `4294967295000 / 1000 + 1 = 2 ^ 32`,
which the `as u32` cast truncates to 0 before storing: the stored level
is 0, not `max(1, 2 ^ 32)`, and the level was lowered from 1 to 0. -/
theorem claim_C7_counterexample :
    (update_experience 5 1 4294967295000
        (register_player 0 1 "alice" initPlayerState).2).1 = Outcome.ok () ∧
    ((update_experience 5 1 4294967295000
        (register_player 0 1 "alice" initPlayerState).2).2.players 1).map Player.level =
      some 0 ∧
    ¬ ((update_experience 5 1 4294967295000
        (register_player 0 1 "alice" initPlayerState).2).2.players 1).map Player.level =
      some (max 1 ((0 + 4294967295000) / 1000 + 1)) := by
  refine ⟨by decide, by decide, by decide⟩

/-- Claim C7 as amended: for every `update_experience` call on a stored
player whose new experience total fits in u64 and whose candidate level
`floor(new experience / 1000) + 1` fits in u32 (so that neither the
checked addition traps nor the `as u32` cast truncates): experience
grows by exactly `exp_gained`, `last_activity` becomes `now`, the stored
level becomes `max(previous level, floor(new experience / 1000) + 1)` —
raised, never lowered — and no other player changes. -/
theorem claim_C7_experience_level_ratchet (s : PlayerState) (addr exp_gained now : Nat)
    (p : Player) (hp : s.players addr = some p)
    (hexp : p.experience + exp_gained < U64LIM)
    (hcand : (p.experience + exp_gained) / 1000 + 1 < U32LIM) :
    (update_experience now addr exp_gained s).1 = Outcome.ok () ∧
    (update_experience now addr exp_gained s).2.players addr =
      some { p with experience := p.experience + exp_gained
                    last_activity := now
                    level := max p.level ((p.experience + exp_gained) / 1000 + 1) } ∧
    (∀ a, a ≠ addr → (update_experience now addr exp_gained s).2.players a = s.players a) := by
  unfold update_experience u64Add
  rw [hp]
  dsimp only []
  rw [if_pos hexp]
  dsimp only []
  by_cases hgt : p.level < (p.experience + exp_gained) / 1000 + 1
  · rw [if_pos hgt]
    refine ⟨rfl, ?_, ?_⟩
    · rw [if_pos rfl]
      have hmax : max p.level ((p.experience + exp_gained) / 1000 + 1) =
          (p.experience + exp_gained) / 1000 + 1 := Nat.max_eq_right (Nat.le_of_lt hgt)
      rw [hmax]
      have hcast : castU32 ((p.experience + exp_gained) / 1000 + 1) =
          (p.experience + exp_gained) / 1000 + 1 := Nat.mod_eq_of_lt hcand
      rw [hcast]
    · intro a ha
      rw [if_neg ha]
  · rw [if_neg hgt]
    refine ⟨rfl, ?_, ?_⟩
    · rw [if_pos rfl]
      have hmax : max p.level ((p.experience + exp_gained) / 1000 + 1) = p.level :=
        Nat.max_eq_left (Nat.le_of_not_lt hgt)
      rw [hmax]
    · intro a ha
      rw [if_neg ha]

/-- Witness for the amended C7 at a concrete input: gaining 1500
experience from zero raises the level from 1 to max(1, 2) = 2. -/
theorem claim_C7_witness :
    (update_experience 9 1 1500 (register_player 0 1 "alice" initPlayerState).2).2.players 1 =
      some { address := 1, username := "alice", level := 2, experience := 1500,
             total_mined := 0, active_mines := [], last_activity := 9 } :=
  (claim_C7_experience_level_ratchet (register_player 0 1 "alice" initPlayerState).2 1 1500 9
    { address := 1, username := "alice", level := 1, experience := 0, total_mined := 0,
      active_mines := [], last_activity := 0 }
    (by decide) (by decide) (by decide)).2.1

/-- Claim C10: in `update_experience` the candidate level is computed in
64-bit arithmetic as `(experience / 1000) + 1`, compared against the
current (u32) level, and stored through the truncating `as u32` cast:
whenever the candidate is at least `2 ^ 32` (and the current level is a
valid u32), the comparison succeeds and the stored level is the
candidate modulo `2 ^ 32`, which is strictly smaller than the candidate
— and, as the concrete conjunct shows, can drop below the previous
level, so at these magnitudes the level is neither
`floor(experience / 1000) + 1` nor non-decreasing. -/
theorem claim_C10_level_cast_truncation (s : PlayerState) (addr exp_gained now : Nat)
    (p : Player) (hp : s.players addr = some p) (hlvl : p.level < U32LIM)
    (hexp : p.experience + exp_gained < U64LIM)
    (hcand : U32LIM ≤ (p.experience + exp_gained) / 1000 + 1) :
    ((update_experience now addr exp_gained s).2.players addr =
      some { p with experience := p.experience + exp_gained
                    last_activity := now
                    level := ((p.experience + exp_gained) / 1000 + 1) % U32LIM } ∧
     ((p.experience + exp_gained) / 1000 + 1) % U32LIM <
       (p.experience + exp_gained) / 1000 + 1) ∧
    ((update_experience 5 2 4294967295000
        (register_player 0 2 "carol" initPlayerState).2).2.players 2).map Player.level =
      some 0 := by
  refine ⟨⟨?_, ?_⟩, by decide⟩
  · unfold update_experience u64Add
    rw [hp]
    dsimp only []
    rw [if_pos hexp]
    dsimp only []
    rw [if_pos (by omega : p.level < (p.experience + exp_gained) / 1000 + 1)]
    rw [if_pos rfl]
    rfl
  · have hpos : 0 < U32LIM := by decide
    exact Nat.lt_of_lt_of_le (Nat.mod_lt _ hpos) hcand

/-- Witness for C10 at a concrete input: a fresh player gaining
4294967295000 experience ends with stored level 0 (the truncated
candidate 2 ^ 32). -/
theorem claim_C10_witness :
    (update_experience 5 2 4294967295000
        (register_player 0 2 "carol" initPlayerState).2).2.players 2 =
      some { address := 2, username := "carol", level := 0, experience := 4294967295000,
             total_mined := 0, active_mines := [], last_activity := 5 } :=
  ((claim_C10_level_cast_truncation (register_player 0 2 "carol" initPlayerState).2 2
    4294967295000 5
    { address := 2, username := "carol", level := 1, experience := 0, total_mined := 0,
      active_mines := [], last_activity := 0 }
    (by decide) (by decide) (by decide) (by decide)).1).1
